import Mathlib

/-!
# Verification of the twinny context-assembly and streaming-completion pipeline

Shallow embedding of `src/extension/utils.ts` (chunking helpers, stream-decoding
helpers and the `ChatService` class) and its caller `src/extension/providers/sidebar.ts`.

JavaScript values that may be `undefined`/`null` are embedded as `Option`;
a JavaScript `TypeError` thrown by a property access on `undefined` is embedded
as `Except.error ()`.  Floating-point rerank scores are embedded as rationals
(only order comparisons on them occur in the verified code).
-/

/-- JavaScript `String.prototype.trimStart`: drop leading whitespace. -/
def jsTrimStart (s : String) : String :=
  String.mk (s.toList.dropWhile Char.isWhitespace)

/-- JavaScript `String.prototype.trim`: drop leading and trailing whitespace. -/
def jsTrim (s : String) : String :=
  String.mk (((s.toList.dropWhile Char.isWhitespace).reverse.dropWhile Char.isWhitespace).reverse)

/-- JavaScript `s.slice(start, end)` for `0 ≤ start ≤ end`: the characters in `[start, end)`. -/
def jsSlice (s : String) (start e : Nat) : String :=
  String.mk ((s.toList.drop start).take (e - start))

/-- JavaScript `s.slice(-n)`: the last `n` characters, except that `s.slice(-0)`
is `s.slice(0)`, i.e. the whole string. -/
def jsSliceLast (s : String) (n : Nat) : String :=
  if n = 0 then s else String.mk (s.toList.drop (s.length - n))

/-- JavaScript `Array.prototype.join` on an array of strings. -/
def jsJoin (sep : String) (l : List String) : String :=
  String.intercalate sep l

/-- JavaScript `array.filter(Boolean)` on an array of `string | null | undefined`:
keeps exactly the defined, non-empty strings, in order. -/
def jsFilterBoolean (l : List (Option String)) : List String :=
  (l.filterMap id).filter (fun s => s ≠ "")

/-- The provider kinds dispatched on by the decoders (`apiProviders` in
`common/constants`): Ollama, OpenWebUI, LlamaCpp, LiteLLM, and any other
(unrecognised) provider string, which hits the `default` branch. -/
inductive ApiProvider where
  | ollama
  | openwebui
  | llamacpp
  | litellm
  | other
deriving DecidableEq, Repr

/-- The `choices[0].delta` object of a stream chunk. -/
structure ChatDelta where
  content : Option String
deriving DecidableEq, Repr

/-- One element of the `choices` array of a stream chunk. -/
structure ChatChoice where
  delta : Option ChatDelta
  text : Option String
deriving DecidableEq, Repr

/-- The `StreamResponse` payload shape read by the decoders: any of the fields
may be absent depending on the backend that produced the chunk. -/
structure StreamResponse where
  choices : Option (List ChatChoice)
  content : Option String
  response : Option String
deriving DecidableEq, Repr

/-- JavaScript truthiness ternary `x ? x : ''` for `x : string | undefined`. -/
def jsTruthyOrEmpty (x : Option String) : String :=
  match x with
  | none => ""
  | some s => if s = "" then "" else s

/-- `getChatDataFromProvider` (utils.ts:309).  The `data?.choices[0].delta…`
chains short-circuit to `undefined` when `data` itself is `undefined`, but throw
a `TypeError` (embedded as `Except.error ()`) when `data` is defined and
`choices` is absent, when `choices` is empty (`choices[0]` is `undefined`), or —
in the LiteLLM/default branch, where `delta` is dereferenced without `?.` —
when `delta` is absent. -/
def getChatDataFromProvider (p : ApiProvider) (data : Option StreamResponse) :
    Except Unit (Option String) :=
  match p with
  | ApiProvider.ollama | ApiProvider.openwebui =>
    match data with
    | none => Except.ok (some "")
    | some d =>
      match d.choices with
      | none => Except.error ()
      | some cs =>
        match cs.head? with
        | none => Except.error ()
        | some c => Except.ok (some (jsTruthyOrEmpty (c.delta.bind ChatDelta.content)))
  | ApiProvider.llamacpp => Except.ok (data.bind StreamResponse.content)
  | ApiProvider.litellm | ApiProvider.other =>
    match data with
    | none => Except.ok (some "")
    | some d =>
      match d.choices with
      | none => Except.error ()
      | some cs =>
        match cs.head? with
        | none => Except.error ()
        | some c =>
          match c.delta with
          | none => Except.error ()
          | some dl =>
            if dl.content = some "undefined" then Except.ok (some "")
            else Except.ok (some (jsTruthyOrEmpty dl.content))

/-- `getFimDataFromProvider` (utils.ts:330).  The default branch checks
`!data?.choices.length` (throwing when `data` is defined but `choices` absent)
and guards `choices[0].text === 'undefined'`; the LiteLLM branch dereferences
`choices[0].delta.content` with no guard and no `?.` on `delta`. -/
def getFimDataFromProvider (p : ApiProvider) (data : Option StreamResponse) :
    Except Unit (Option String) :=
  match p with
  | ApiProvider.ollama | ApiProvider.openwebui =>
    Except.ok (data.bind StreamResponse.response)
  | ApiProvider.llamacpp => Except.ok (data.bind StreamResponse.content)
  | ApiProvider.litellm =>
    match data with
    | none => Except.ok none
    | some d =>
      match d.choices with
      | none => Except.error ()
      | some cs =>
        match cs.head? with
        | none => Except.error ()
        | some c =>
          match c.delta with
          | none => Except.error ()
          | some dl => Except.ok dl.content
  | ApiProvider.other =>
    match data with
    | none => Except.ok none
    | some d =>
      match d.choices with
      | none => Except.error ()
      | some cs =>
        match cs.head? with
        | none => Except.ok none
        | some c =>
          if c.text = some "undefined" then Except.ok (some "")
          else Except.ok (some (jsTruthyOrEmpty c.text))

/-- `isStreamWithDataPrefix` (utils.ts:351). -/
def isStreamWithDataPrefix (stringBuffer : String) : Bool :=
  stringBuffer.startsWith "data:"

/-- The payload actually handed to `JSON.parse` by `safeParseJsonResponse`:
`stringBuffer.split('data:')[1]` when the SSE marker is present, the raw buffer
otherwise. -/
def ssePayload (stringBuffer : String) : String :=
  if isStreamWithDataPrefix stringBuffer then (stringBuffer.splitOn "data:").getD 1 ""
  else stringBuffer

/-- `safeParseJsonResponse` (utils.ts:370), with `JSON.parse` abstracted as a
`parse` function whose exceptions are an `Except.error`: the `try`/`catch`
turns any parse failure into `undefined` (`none`). -/
def safeParseJsonResponse (parse : String → Except String StreamResponse)
    (stringBuffer : String) : Option StreamResponse :=
  match parse (ssePayload stringBuffer) with
  | Except.ok r => some r
  | Except.error _ => none

/-- Modelled from the spec: the stream read loop (`stream.ts`, not under `src/`)
feeds each raw chunk through `safeParseJsonResponse` and treats a chunk that
fails to parse as "no delta extracted" — an empty text fragment, not an error —
before handing a successfully parsed payload to the per-provider chat decoder. -/
def extractDelta (parse : String → Except String StreamResponse) (p : ApiProvider)
    (rawChunk : String) : Except Unit (Option String) :=
  match safeParseJsonResponse parse rawChunk with
  | none => Except.ok (some "")
  | some r => getChatDataFromProvider p (some r)

/-- The loop body of `combineChunks` (utils.ts:508), one recursive step per
input fragment, threading the accumulator `currentChunk`.  The first `if`
either flushes the accumulator (when it already meets `minSize`) or keeps
absorbing with a `' '` separator; the trailing `if` flushes whenever the
accumulator has reached `maxSize - overlap` and reseeds it with
`currentChunk.slice(-overlap)`. -/
def combineChunksGo (minSize maxSize overlap : Nat) :
    List String → String → List String
  | [], currentChunk =>
    if minSize ≤ currentChunk.length then [currentChunk] else []
  | chunk :: rest, currentChunk =>
    let pushedA : List String :=
      if maxSize < currentChunk.length + chunk.length then
        if minSize ≤ currentChunk.length then [currentChunk] else []
      else []
    let currentChunk1 : String :=
      if maxSize < currentChunk.length + chunk.length then
        if minSize ≤ currentChunk.length then chunk
        else currentChunk ++ " " ++ chunk
      else currentChunk ++ (if currentChunk.length = 0 then "" else " ") ++ chunk
    if maxSize - overlap ≤ currentChunk1.length then
      pushedA ++ currentChunk1 ::
        combineChunksGo minSize maxSize overlap rest (jsSliceLast currentChunk1 overlap)
    else
      pushedA ++ combineChunksGo minSize maxSize overlap rest currentChunk1

/-- `combineChunks` (utils.ts:508): fold the raw fragment list into larger
fragments, starting from an empty accumulator. -/
def combineChunks (chunks : List String) (minSize maxSize overlap : Nat) : List String :=
  combineChunksGo minSize maxSize overlap chunks ""

/-- The window-start update of `simpleChunk` (utils.ts:562):
`start = end - overlap > start ? end - overlap : end`, where
`end = min(start + maxSize, content.length)`.  Natural-number truncated
subtraction agrees with the JavaScript signed comparison here, since
`end - overlap > start ≥ 0` forces `end > overlap` in both readings. -/
def simpleChunkNext (len maxSize overlap start : Nat) : Nat :=
  let e := min (start + maxSize) len
  if e - overlap > start then e - overlap else e

/-- The `while` loop of `simpleChunk` (utils.ts:542), fuel-indexed: each
iteration pushes `content.slice(start, end)`, then either breaks (when the
window reached the end of the content) or recurses at `simpleChunkNext`.
The fuel-exhaustion branch is unreachable for `maxSize ≥ 1`
(`simpleChunkGo_fuel_irrelevant`); with `maxSize = 0` the source loop never
terminates.  The source's `try`/`catch` around `chunks.push` only intercepts
an engine-level `RangeError` on array-length overflow and is not part of the
value-level semantics. -/
def simpleChunkGo (content : String) (minSize maxSize overlap : Nat) :
    Nat → Nat → List String
  | 0, _ => []
  | fuel + 1, start =>
    if start < content.length then
      let e := min (start + maxSize) content.length
      let chunk := jsSlice content start e
      if e = content.length then [chunk]
      else chunk ::
        simpleChunkGo content minSize maxSize overlap fuel
          (simpleChunkNext content.length maxSize overlap start)
    else []

/-- `simpleChunk` (utils.ts:537): run the window loop from `start = 0`, then
drop fragments shorter than `minSize` unless they are the last fragment. -/
def simpleChunk (content : String) (minSize maxSize overlap : Nat) : List String :=
  let chunks := simpleChunkGo content minSize maxSize overlap (content.length + 1) 0
  (chunks.enum.filter
    (fun ic => decide (minSize ≤ ic.2.length ∨ ic.1 = chunks.length - 1))).map
    (fun ic => ic.2)

/-! ## The `ChatService` session controller

The controller's mutable fields relevant to the verified claims are
`_completion` (the accumulated text), `_controller` (the abort handle of the
active transport stream, identified here by a numeric id) and
`_promptTemplate`.  Webview `postMessage` calls are recorded as a list of
emitted events; `abort()` calls on held handles are recorded as a list of
handle ids.  Editor-language payload fields and the status-bar/`setContext`
side channels are host-UI state orthogonal to the claims and are carried only
where a claim mentions them. -/

/-- A lifecycle event posted to the webview.  `completionMsg` is the
incremental `twinnyOnCompletion` event; `endMsg` is the terminal `twinnyOnEnd`
event with its optional completion payload; `errorEndMsg` is `twinnyOnEnd`
carrying the error flag and message. -/
inductive ServerEvent where
  | completionMsg (completion : String)
  | endMsg (completion : Option String)
  | errorEndMsg (message : String)
deriving DecidableEq, Repr

/-- The controller-level mutable state of `ChatService`. -/
structure ChatState where
  completion : String
  controller : Option Nat
  promptTemplate : String
deriving DecidableEq, Repr

/-- `ChatService.onStreamStart` (utils.ts:956): store the transport's fresh
`AbortController` in `_controller`.  The returned list records every `abort()`
invoked on a previously held handle — the source performs none: the old handle
is simply overwritten. -/
def onStreamStart (st : ChatState) (freshController : Nat) : ChatState × List Nat :=
  ({ st with controller := some freshController }, [])

/-- The controller-state effects of `ChatService.streamChatCompletion`
(utils.ts:1087) up to and including the transport invoking `onStart` with a
fresh `AbortController`: `_completion` is reset to `''`, prompt assembly and
request building touch no session state, and `onStreamStart` overwrites
`_controller`.  The second component records every `abort()` call performed on
a previously held handle along the way. -/
def streamChatCompletionStart (st : ChatState) (freshController : Nat) :
    ChatState × List Nat :=
  onStreamStart { st with completion := "" } freshController

/-- `ChatService.onStreamData` (utils.ts:897): decode the chunk with
`getChatDataFromProvider`, append the delta to `_completion` (JavaScript `+`
stringifies an `undefined` delta as `"undefined"`), and — only when no `onEnd`
callback was supplied — post one incremental event carrying
`_completion.trimStart()`.  A missing provider returns early; a `TypeError`
thrown by the decoder is caught, leaving the state unchanged and emitting
nothing. -/
def onStreamData (provider : Option ApiProvider) (completion : String)
    (streamResponse : Option StreamResponse) (hasOnEnd : Bool) :
    String × List ServerEvent :=
  match provider with
  | none => (completion, [])
  | some p =>
    match getChatDataFromProvider p streamResponse with
    | Except.error _ => (completion, [])
    | Except.ok delta =>
      let completion1 := completion ++ (delta.getD "undefined")
      if hasOnEnd then (completion1, [])
      else (completion1, [ServerEvent.completionMsg (jsTrimStart completion1)])

/-- The observable outcome of one `ChatService.destroyStream` call. -/
structure DestroyOutcome where
  aborted : List Nat
  events : List ServerEvent
  statusBarText : String
  generatingContextFlag : Bool
deriving DecidableEq, Repr

/-- `ChatService.destroyStream` (utils.ts:970): `this._controller?.abort()`
(a no-op when no handle is held), reset the status bar, set the
`twinnyGeneratingText` context flag (to `true`, as written in the source), and
post a terminal end event carrying `_completion.trimStart()`. -/
def destroyStream (st : ChatState) : DestroyOutcome :=
  { aborted := match st.controller with | none => [] | some c => [c]
    events := [ServerEvent.endMsg (some (jsTrimStart st.completion))]
    statusBarText := "🤖"
    generatingContextFlag := true }

/-! ## Retrieval: ad-hoc file reads and the returned code block -/

/-- A file as seen by `fs.stat`/`fs.readFile`: its byte size and the outcome of
reading it (`Except.error ()` embeds a thrown read error). -/
structure FsEntry where
  size : Nat
  read : Except Unit String
deriving Repr

/-- The file system as a partial map from paths; `none` embeds a path on which
`fs.stat` throws. -/
def FileSystem : Type := String → Option FsEntry

/-- `ChatService.readFileContent` (utils.ts:778): `null` for a missing path
argument; then under `try`: `null` when the stat size exceeds `maxFileSize`
(default `5 * 1024`), `''` for a zero-byte file, otherwise the file's content;
the `catch` turns a thrown stat or read error into `null`. -/
def readFileContent (fs : FileSystem) (filePath : Option String)
    (maxFileSize : Nat := 5 * 1024) : Option String :=
  match filePath with
  | none => none
  | some p =>
    match fs p with
    | none => none
    | some entry =>
      if maxFileSize < entry.size then none
      else if entry.size = 0 then some ""
      else
        match entry.read with
        | Except.ok content => some content
        | Except.error _ => none

/-- The `readFileChunks` loop of `ChatService.getRelevantCode` (utils.ts:839):
for each `(path, score)` pair from the file stage, when the file-level score
strictly exceeds the threshold, push the (possibly `null`) result of
`readFileContent`; the surrounding `try`/`catch` isolates each file, so the
loop always continues to the next candidate. -/
def readFileChunksOf (fs : FileSystem) (readThreshould : ℚ) :
    List (String × ℚ) → List (Option String)
  | [] => []
  | pf :: rest =>
    if readThreshould < pf.2 then
      readFileContent fs (some pf.1) :: readFileChunksOf fs readThreshould rest
    else readFileChunksOf fs readThreshould rest

/-- The `documentChunks` expression of `ChatService.getRelevantCode`
(utils.ts:850): keep each document whose positionally aligned rerank score
strictly exceeds the threshold, and project its (possibly absent) `content`
field.  A document with no aligned score is dropped, as in JavaScript where
`undefined > threshold` is false. -/
def documentChunksOf (documents : List (Option String)) (scores : List ℚ)
    (rerankThreshold : ℚ) : List (Option String) :=
  ((documents.zip scores).filter (fun ds => decide (rerankThreshold < ds.2))).map
    (fun ds => ds.1)

/-- The return expression of `ChatService.getRelevantCode` (utils.ts:854):
`[readFileChunks.filter(Boolean), documentChunks.filter(Boolean)].join('\n\n').trim()`.
JavaScript `Array.prototype.join` stringifies each element, and stringifying a
nested array is itself a comma-join. -/
def getRelevantCodeReturn (readFileChunks documentChunks : List (Option String)) :
    String :=
  jsTrim (jsJoin "\n\n"
    [jsJoin "," (jsFilterBoolean readFileChunks),
     jsJoin "," (jsFilterBoolean documentChunks)])

/-- The code block as described by the claim (its words, for comparison with
the source's `getRelevantCodeReturn`): each admitted group joined by newlines,
the two groups separated by a blank line, the whole result trimmed. -/
def getRelevantCodeReturnClaimed (readFileChunks documentChunks : List (Option String)) :
    String :=
  jsTrim (jsJoin "\n" (jsFilterBoolean readFileChunks) ++ "\n\n" ++
    jsJoin "\n" (jsFilterBoolean documentChunks))

/-! ## Helper lemmas -/

theorem jsSliceLast_length_le (s : String) (n : Nat) : (jsSliceLast s n).length ≤ s.length := by
  unfold jsSliceLast
  split
  · exact Nat.le_refl _
  · show (s.toList.drop (s.length - n)).length ≤ s.length
    rw [List.length_drop]
    exact Nat.sub_le _ _

theorem string_append_length (a b : String) : (a ++ b).length = a.length + b.length :=
  String.length_append a b

/-- Every fragment emitted by the `combineChunks` fold is bounded by
`maxSize + minSize`, as long as the accumulator respects that bound and every
remaining input fragment is at most `maxSize` long. -/
theorem combineChunksGo_length_le (minSize maxSize overlap : Nat) (h1 : 1 ≤ minSize) :
    ∀ (chunks : List String) (currentChunk : String),
      (∀ c ∈ chunks, c.length ≤ maxSize) →
      currentChunk.length ≤ maxSize + minSize →
      ∀ out ∈ combineChunksGo minSize maxSize overlap chunks currentChunk,
        out.length ≤ maxSize + minSize := by
  intro chunks
  induction chunks with
  | nil =>
    intro cur _ hcur out hout
    simp only [combineChunksGo] at hout
    split at hout
    · rw [List.mem_singleton] at hout
      exact hout ▸ hcur
    · exact absurd hout (List.not_mem_nil out)
  | cons chunk rest ih =>
    intro cur hall hcur out hout
    have hchunk : chunk.length ≤ maxSize := hall chunk (List.mem_cons_self chunk rest)
    have hrest : ∀ c ∈ rest, c.length ≤ maxSize := fun c hc => hall c (List.mem_cons_of_mem _ hc)
    simp only [combineChunksGo] at hout
    set cur1 : String :=
      if maxSize < cur.length + chunk.length then
        if minSize ≤ cur.length then chunk else cur ++ " " ++ chunk
      else cur ++ (if cur.length = 0 then "" else " ") ++ chunk with hcur1
    have hcur1_le : cur1.length ≤ maxSize + minSize := by
      rw [hcur1]
      split
      · split
        · exact Nat.le_trans hchunk (Nat.le_add_right _ _)
        · rename_i hflush hmin
          rw [string_append_length, string_append_length]
          have hc : cur.length + 1 ≤ minSize := Nat.lt_of_not_le (fun h => hmin h)
          have : cur.length + (" ").length + chunk.length ≤ minSize + maxSize := by
            have hsp : (" " : String).length = 1 := rfl
            omega
          omega
      · rename_i hno
        rw [string_append_length, string_append_length]
        have hsep : (if cur.length = 0 then "" else " ").length ≤ 1 := by
          split <;> decide
        have hsum : cur.length + chunk.length ≤ maxSize := Nat.le_of_not_lt hno
        omega
    have hpushA : ∀ x ∈ (if maxSize < cur.length + chunk.length then
        if minSize ≤ cur.length then [cur] else [] else ([] : List String)),
        x.length ≤ maxSize + minSize := by
      intro x hx
      split at hx
      · split at hx
        · rw [List.mem_singleton] at hx
          exact hx ▸ hcur
        · exact absurd hx (List.not_mem_nil x)
      · exact absurd hx (List.not_mem_nil x)
    split at hout
    · rw [List.mem_append] at hout
      rcases hout with hx | hx
      · exact hpushA out hx
      · rw [List.mem_cons] at hx
        rcases hx with hx | hx
        · exact hx ▸ hcur1_le
        · exact ih (jsSliceLast cur1 overlap) hrest
            (Nat.le_trans (jsSliceLast_length_le cur1 overlap) hcur1_le) out hx
    · rw [List.mem_append] at hout
      rcases hout with hx | hx
      · exact hpushA out hx
      · exact ih cur1 hrest hcur1_le out hx

/-- On a non-final iteration of the `simpleChunk` loop the window start
strictly advances, and when `overlap ≥ maxSize` it advances by the full window
width `maxSize`. -/
theorem simpleChunkNext_advances (len maxSize overlap start : Nat) (hmax : 1 ≤ maxSize)
    (hne : min (start + maxSize) len ≠ len) :
    start < simpleChunkNext len maxSize overlap start
    ∧ (maxSize ≤ overlap → simpleChunkNext len maxSize overlap start = start + maxSize) := by
  have hlt : start + maxSize < len := by
    rcases Nat.lt_or_ge (start + maxSize) len with h | h
    · exact h
    · exact absurd (Nat.min_eq_right h) hne
  have hmin : min (start + maxSize) len = start + maxSize := Nat.min_eq_left (Nat.le_of_lt hlt)
  unfold simpleChunkNext
  rw [hmin]
  dsimp only
  constructor
  · split
    · omega
    · omega
  · intro hov
    have : start + maxSize - overlap ≤ start := by omega
    rw [if_neg (by omega)]

/-- The fuel-indexed `simpleChunk` loop is independent of the fuel as soon as
the fuel exceeds the remaining content length (for `maxSize ≥ 1`): the source
loop terminates. -/
theorem simpleChunkGo_fuel_irrelevant (content : String) (minSize maxSize overlap : Nat)
    (hmax : 1 ≤ maxSize) :
    ∀ f1 f2 start, content.length - start < f1 → content.length - start < f2 →
      simpleChunkGo content minSize maxSize overlap f1 start
        = simpleChunkGo content minSize maxSize overlap f2 start := by
  intro f1
  induction f1 with
  | zero => intro f2 start h1 _; omega
  | succ f ihf =>
    intro f2 start h1 h2
    match f2, h2 with
    | g + 1, h2 =>
      simp only [simpleChunkGo]
      by_cases hs : start < content.length
      · rw [if_pos hs, if_pos hs]
        by_cases he : min (start + maxSize) content.length = content.length
        · rw [if_pos he, if_pos he]
        · rw [if_neg he, if_neg he]
          have hadv := (simpleChunkNext_advances content.length maxSize overlap start hmax he).1
          have hnextle : simpleChunkNext content.length maxSize overlap start ≤ content.length := by
            unfold simpleChunkNext
            dsimp only
            have : min (start + maxSize) content.length ≤ content.length := Nat.min_le_right _ _
            split <;> omega
          rw [ihf g (simpleChunkNext content.length maxSize overlap start)
            (by omega) (by omega)]
      · rw [if_neg hs, if_neg hs]

/-! ## Claims -/

/-- Claim C1 (refuted by the source; the spec's stated intent): starting a new
completion session while a previous stream is active is required to abort the
prior session's handle before the new stream opens.  The source instead resets
`_completion` and lets `onStreamStart` overwrite `_controller` with the fresh
`AbortController`; no `abort()` is invoked anywhere on the start path, so the
prior stream (handle `7` here) stays live alongside the new one (handle `8`). -/
theorem streamChatCompletion_keeps_prior_stream_alive :
    (streamChatCompletionStart
      { completion := "partial answer", controller := some 7, promptTemplate := "" } 8).2 = []
    ∧ (streamChatCompletionStart
      { completion := "partial answer", controller := some 7, promptTemplate := "" } 8).1
      = { completion := "", controller := some 8, promptTemplate := "" } :=
  ⟨rfl, rfl⟩

/-- Claim C2, counterexample: with options `minSize = 5`, `maxSize = 10`,
`overlap = 2`, every input fragment is at most `maxSize` long, yet
`combineChunks` emits a fragment of length `14 > maxSize`: a sub-`minSize`
accumulator keeps absorbing past `maxSize`. -/
theorem combineChunks_can_exceed_maxSize :
    (∀ c ∈ ["aaaa", "bbbbbbbbb"], c.length ≤ 10)
    ∧ ¬ (∀ out ∈ combineChunks ["aaaa", "bbbbbbbbb"] 5 10 2, out.length ≤ 10) := by
  decide

/-- Claim C2, amended: for every chunk-option set with `minSize ≥ 1` and every
input list whose fragments are each at most `maxSize` long, `combineChunks`
never emits a fragment longer than `maxSize + minSize` (the absorbing branch
can overshoot `maxSize` by up to `minSize`, but no further). -/
theorem combineChunks_length_bounded (minSize maxSize overlap : Nat)
    (chunks : List String) (out : String) (h1 : 1 ≤ minSize)
    (hall : ∀ c ∈ chunks, c.length ≤ maxSize)
    (hout : out ∈ combineChunks chunks minSize maxSize overlap) :
    out.length ≤ maxSize + minSize :=
  combineChunksGo_length_le minSize maxSize overlap h1 chunks "" hall
    (Nat.zero_le _) out hout

/-- Claim C2, witness for `combineChunks_length_bounded` at
`chunks = ["abc"]`, `minSize = 1`, `maxSize = 5`, `overlap = 1`. -/
theorem combineChunks_length_bounded_witness : ("abc" : String).length ≤ 5 + 1 :=
  combineChunks_length_bounded 1 5 1 ["abc"] "abc" (by decide) (by decide) (by decide)

/-- Claim C3, counterexample: for the Ollama provider kind the chat decoder has
no guard against the literal string `"undefined"`: a `choices[0].delta.content`
equal to `"undefined"` is returned verbatim, not as `""`. -/
theorem getChatDataFromProvider_ollama_undefined_leaks :
    getChatDataFromProvider ApiProvider.ollama
      (some { choices := some [{ delta := some { content := some "undefined" }, text := none }],
              content := none, response := none })
      = Except.ok (some "undefined")
    ∧ ("undefined" : String) ≠ "" :=
  ⟨rfl, by decide⟩

/-- Claim C3, amended: the `"undefined"` guard exists exactly in the chat
decoder's LiteLLM/generic branch (on `choices[0].delta.content`) and in the
fill-in-middle decoder's generic-fallback branch (on `choices[0].text`); the
Ollama/OpenWebUI branches of both decoders and the LiteLLM branch of the
fill-in-middle decoder pass the literal `"undefined"` through unchanged. -/
theorem undefined_guard_exact_locus :
    (∀ (tx ct rs : Option String) (rest : List ChatChoice),
        getChatDataFromProvider ApiProvider.litellm
          (some { choices := some ({ delta := some { content := some "undefined" },
                                     text := tx } :: rest),
                  content := ct, response := rs }) = Except.ok (some ""))
    ∧ (∀ (dl : Option ChatDelta) (ct rs : Option String) (rest : List ChatChoice),
        getFimDataFromProvider ApiProvider.other
          (some { choices := some ({ delta := dl, text := some "undefined" } :: rest),
                  content := ct, response := rs }) = Except.ok (some ""))
    ∧ (∀ (tx ct rs : Option String) (rest : List ChatChoice),
        getChatDataFromProvider ApiProvider.ollama
          (some { choices := some ({ delta := some { content := some "undefined" },
                                     text := tx } :: rest),
                  content := ct, response := rs }) = Except.ok (some "undefined"))
    ∧ (∀ (ch : Option (List ChatChoice)) (ct : Option String),
        getFimDataFromProvider ApiProvider.ollama
          (some { choices := ch, content := ct, response := some "undefined" })
          = Except.ok (some "undefined"))
    ∧ (∀ (tx ct rs : Option String) (rest : List ChatChoice),
        getFimDataFromProvider ApiProvider.litellm
          (some { choices := some ({ delta := some { content := some "undefined" },
                                     text := tx } :: rest),
                  content := ct, response := rs }) = Except.ok (some "undefined")) := by
  refine ⟨?_, ?_, ?_, ?_, ?_⟩ <;> intros <;> rfl

/-- Claim C4: a raw stream chunk whose payload (with or without the SSE
`data:` marker) is malformed JSON never raises past the decode boundary:
`safeParseJsonResponse` absorbs the parse exception into `undefined`, and the
read loop turns that into an empty delta for every provider kind.  The JSON
parser itself is abstract, so this covers every truncated or malformed
payload. -/
theorem extractDelta_malformed_chunk_is_empty
    (parse : String → Except String StreamResponse) (p : ApiProvider)
    (rawChunk msg : String) (h : parse (ssePayload rawChunk) = Except.error msg) :
    safeParseJsonResponse parse rawChunk = none
    ∧ extractDelta parse p rawChunk = Except.ok (some "") := by
  have hs : safeParseJsonResponse parse rawChunk = none := by
    unfold safeParseJsonResponse
    rw [h]
  refine ⟨hs, ?_⟩
  unfold extractDelta
  rw [hs]

/-- Claim C4, witness for `extractDelta_malformed_chunk_is_empty` on a
truncated SSE chunk with a parser that rejects it. -/
theorem extractDelta_malformed_chunk_is_empty_witness :
    safeParseJsonResponse (fun _ => Except.error "Unexpected end of JSON input")
      "data:truncated" = none
    ∧ extractDelta (fun _ => Except.error "Unexpected end of JSON input")
      ApiProvider.litellm "data:truncated" = Except.ok (some "") :=
  extractDelta_malformed_chunk_is_empty
    (fun _ => Except.error "Unexpected end of JSON input")
    ApiProvider.litellm "data:truncated" "Unexpected end of JSON input" rfl

/-- Claim C5, counterexample: with two admitted file reads `"a"`, `"b"` and two
admitted code fragments `"c"`, `"d"`, the source's return expression
`[readFileChunks.filter(Boolean), documentChunks.filter(Boolean)].join('\n\n')`
comma-joins each group (JavaScript array stringification), producing
`"a,b\n\nc,d"` — not the newline-joined block the claim describes. -/
theorem getRelevantCode_comma_joins_groups :
    getRelevantCodeReturn [some "a", some "b"] [some "c", some "d"] = "a,b\n\nc,d"
    ∧ getRelevantCodeReturn [some "a", some "b"] [some "c", some "d"]
      ≠ getRelevantCodeReturnClaimed [some "a", some "b"] [some "c", some "d"] := by
  constructor
  · decide
  · decide

/-- Claim C5, amended: the code block is the admitted (non-null, non-empty)
file reads joined by commas, then a blank line, then the admitted code
fragments joined by commas, the whole result trimmed; the claim's
newline-joined description coincides with the source only when each group
admits at most one fragment. -/
theorem getRelevantCode_block_shape :
    (∀ readFileChunks documentChunks : List (Option String),
        getRelevantCodeReturn readFileChunks documentChunks
          = jsTrim (jsJoin "," ((readFileChunks.filterMap id).filter (fun s => s ≠ ""))
              ++ "\n\n" ++ jsJoin "," ((documentChunks.filterMap id).filter (fun s => s ≠ ""))))
    ∧ (∀ readFileChunks documentChunks : List (Option String),
        (jsFilterBoolean readFileChunks).length ≤ 1 →
        (jsFilterBoolean documentChunks).length ≤ 1 →
        getRelevantCodeReturn readFileChunks documentChunks
          = getRelevantCodeReturnClaimed readFileChunks documentChunks) := by
  constructor
  · intro rf dc
    rfl
  · intro rf dc hrf hdc
    unfold getRelevantCodeReturn getRelevantCodeReturnClaimed
    have join_short : ∀ (sep1 sep2 : String) (l : List String),
        l.length ≤ 1 → jsJoin sep1 l = jsJoin sep2 l := by
      intro sep1 sep2 l hl
      match l with
      | [] => rfl
      | [x] => rfl
      | x :: y :: rest => simp at hl
    rw [join_short "," "\n" _ hrf, join_short "," "\n" _ hdc]
    rfl

/-- Claim C6, counterexample: a received chunk whose payload has no `choices`
array makes the Ollama-branch property access throw; `onStreamData` catches the
`TypeError` and emits nothing, so with no on-end handler installed this chunk
produces zero incremental events, not exactly one. -/
theorem onStreamData_swallows_undecodable_chunk :
    ¬ ((onStreamData (some ApiProvider.ollama) ""
        (some { choices := none, content := none, response := none }) false).2.length = 1) := by
  decide

/-- Claim C6, amended: for every chunk whose provider-shape decoding succeeds,
`onStreamData` with an on-end handler present appends the delta and emits no
incremental event, and with no handler appends the delta and emits exactly one
incremental event carrying the full accumulated text so far (trimmed of
leading whitespace); a chunk whose decoding throws is swallowed by the catch,
with no accumulation and no event. -/
theorem onStreamData_incremental_events (p : ApiProvider) (completion : String)
    (data : Option StreamResponse) (delta : Option String)
    (h : getChatDataFromProvider p data = Except.ok delta) :
    onStreamData (some p) completion data true
      = (completion ++ delta.getD "undefined", [])
    ∧ onStreamData (some p) completion data false
      = (completion ++ delta.getD "undefined",
         [ServerEvent.completionMsg (jsTrimStart (completion ++ delta.getD "undefined"))]) := by
  unfold onStreamData
  dsimp only
  rw [h]
  exact ⟨rfl, rfl⟩

/-- Claim C6, witness for `onStreamData_incremental_events` on a decodable
Ollama chunk carrying the delta `"!"` appended to the accumulated text
`" hi"`. -/
theorem onStreamData_incremental_events_witness :
    onStreamData (some ApiProvider.ollama) " hi"
      (some { choices := some [{ delta := some { content := some "!" }, text := none }],
              content := none, response := none }) true
      = (" hi!", [])
    ∧ onStreamData (some ApiProvider.ollama) " hi"
      (some { choices := some [{ delta := some { content := some "!" }, text := none }],
              content := none, response := none }) false
      = (" hi!", [ServerEvent.completionMsg "hi!"]) :=
  onStreamData_incremental_events ApiProvider.ollama " hi"
    (some { choices := some [{ delta := some { content := some "!" }, text := none }],
            content := none, response := none }) (some "!") rfl

/-- Unfolding equation for `readFileContent` at a present path argument. -/
theorem readFileContent_at (fs : FileSystem) (p : String) :
    readFileContent fs (some p)
      = (match fs p with
         | none => none
         | some entry =>
           if 5 * 1024 < entry.size then none
           else if entry.size = 0 then some ""
           else (match entry.read with
                 | Except.ok content => some content
                 | Except.error _ => none)) := rfl

/-- Unfolding equation for `readFileContent` once the stat result is known. -/
theorem readFileContent_entry (fs : FileSystem) (p : String) (entry : FsEntry)
    (h : fs p = some entry) :
    readFileContent fs (some p)
      = if 5 * 1024 < entry.size then none
        else if entry.size = 0 then some ""
        else (match entry.read with
              | Except.ok content => some content
              | Except.error _ => none) := by
  rw [readFileContent_at, h]

/-- Claim C7: in `getRelevantCode`, each file from the file stage contributes
its `readFileContent` result exactly when its file-level rerank score strictly
exceeds the threshold; that result is a content string iff the stat succeeds
with size at most `5 * 1024` bytes (the oversized case yields `null`, never a
truncation), a zero-byte file yields `""` rather than an error, a thrown stat
or read error yields `null`, and no outcome ever interrupts the rest of the
batch (the loop is a total fold over the candidate list). -/
theorem getRelevantCode_file_admission (fs : FileSystem) (readThreshould : ℚ) :
    (∀ files : List (String × ℚ),
        readFileChunksOf fs readThreshould files
          = (files.filter (fun pf => decide (readThreshould < pf.2))).map
              (fun pf => readFileContent fs (some pf.1)))
    ∧ (∀ p c, readFileContent fs (some p) = some c ↔
        ∃ entry, fs p = some entry ∧ entry.size ≤ 5 * 1024 ∧
          ((entry.size = 0 ∧ c = "") ∨ (entry.size ≠ 0 ∧ entry.read = Except.ok c)))
    ∧ (∀ p entry, fs p = some entry → 5 * 1024 < entry.size →
        readFileContent fs (some p) = none)
    ∧ (∀ p entry, fs p = some entry → entry.size = 0 →
        readFileContent fs (some p) = some "")
    ∧ (∀ p entry e, fs p = some entry → entry.size ≠ 0 → entry.read = Except.error e →
        readFileContent fs (some p) = none)
    ∧ (∀ p, fs p = none → readFileContent fs (some p) = none) := by
  refine ⟨?_, ?_, ?_, ?_, ?_, ?_⟩
  · intro files
    induction files with
    | nil => rfl
    | cons pf rest ihf =>
      by_cases hq : readThreshould < pf.2
      · simp [readFileChunksOf, hq, ihf, List.filter_cons]
      · simp [readFileChunksOf, hq, ihf, List.filter_cons]
  · intro p c
    constructor
    · intro h
      match hfs : fs p with
      | none => rw [readFileContent_at, hfs] at h; exact absurd h (by simp)
      | some entry =>
        rw [readFileContent_entry fs p entry hfs] at h
        refine ⟨entry, rfl, ?_, ?_⟩
        · by_cases hsz : 5 * 1024 < entry.size
          · rw [if_pos hsz] at h; exact absurd h (by simp)
          · exact Nat.le_of_not_lt hsz
        · by_cases hsz : 5 * 1024 < entry.size
          · rw [if_pos hsz] at h; exact absurd h (by simp)
          · rw [if_neg hsz] at h
            by_cases h0 : entry.size = 0
            · rw [if_pos h0] at h
              exact Or.inl ⟨h0, (Option.some_injective _ h).symm⟩
            · rw [if_neg h0] at h
              match hr : entry.read with
              | Except.ok content =>
                rw [hr] at h
                have hc : content = c := Option.some_injective _ h
                exact Or.inr ⟨h0, by rw [hc]⟩
              | Except.error e =>
                rw [hr] at h
                exact absurd h (by simp)
    · rintro ⟨entry, hfs, hle, hcase⟩
      rw [readFileContent_entry fs p entry hfs]
      rcases hcase with ⟨h0, hc⟩ | ⟨h0, hr⟩
      · rw [if_neg (Nat.not_lt_of_le hle), if_pos h0, hc]
      · rw [if_neg (Nat.not_lt_of_le hle), if_neg h0, hr]
  · intro p entry hfs hsz
    rw [readFileContent_entry fs p entry hfs, if_pos hsz]
  · intro p entry hfs h0
    rw [readFileContent_entry fs p entry hfs, if_neg (by omega), if_pos h0]
  · intro p entry e hfs h0 hr
    rw [readFileContent_entry fs p entry hfs]
    by_cases hsz : 5 * 1024 < entry.size
    · rw [if_pos hsz]
    · rw [if_neg hsz, if_neg h0, hr]
  · intro p hfs
    rw [readFileContent_at, hfs]

/-- Claim C7, witness for `getRelevantCode_file_admission`: a concrete file
system with a zero-byte file `a.ts` whose file-level score `1` exceeds the
threshold `0`, admitted as the empty string. -/
theorem getRelevantCode_file_admission_witness :
    readFileChunksOf (fun p => if p = "a.ts" then some ⟨0, Except.ok ""⟩ else none)
      (0 : ℚ) [("a.ts", (1 : ℚ))] = [some ""]
    ∧ readFileContent (fun p => if p = "a.ts" then some ⟨0, Except.ok ""⟩ else none)
      (some "a.ts") = some "" := by
  have h := getRelevantCode_file_admission
    (fun p => if p = "a.ts" then some ⟨0, Except.ok ""⟩ else none) (0 : ℚ)
  have hcontent := h.2.2.2.1 "a.ts" ⟨0, Except.ok ""⟩ rfl rfl
  refine ⟨?_, hcontent⟩
  rw [h.1 [("a.ts", (1 : ℚ))]]
  have hsc : decide ((0 : ℚ) < 1) = true := decide_eq_true zero_lt_one
  simp only [List.filter_cons, hsc, eq_self_iff_true, if_true, List.filter_nil, List.map_cons,
    List.map_nil, hcontent]

/-- Claim C8, counterexample: `destroyStream` on an idle controller (no abort
handle held) is not a no-op: it aborts nothing, but still posts a terminal end
event to the webview. -/
theorem destroyStream_idle_not_noop :
    (destroyStream { completion := "", controller := none, promptTemplate := "" }).aborted = []
    ∧ (destroyStream { completion := "", controller := none, promptTemplate := "" }).events
      ≠ [] :=
  ⟨rfl, by decide⟩

/-- Claim C8, amended: invoking `destroyStream` with no active session or
transport does not raise and performs no abort (the absent handle is skipped by
optional chaining), but it is not a silent no-op: it still emits exactly one
terminal end event carrying the current accumulated text (trimmed of leading
whitespace), resets the status bar, and sets the generating-text context flag
(to `true`, as the source writes it). -/
theorem destroyStream_idle_behavior (st : ChatState) (h : st.controller = none) :
    (destroyStream st).aborted = []
    ∧ (destroyStream st).events = [ServerEvent.endMsg (some (jsTrimStart st.completion))]
    ∧ (destroyStream st).statusBarText = "🤖"
    ∧ (destroyStream st).generatingContextFlag = true := by
  unfold destroyStream
  rw [h]
  exact ⟨rfl, rfl, rfl, rfl⟩

/-- Claim C8, witness for `destroyStream_idle_behavior` on the idle state. -/
theorem destroyStream_idle_behavior_witness :
    (destroyStream { completion := "", controller := none, promptTemplate := "" }).aborted = []
    ∧ (destroyStream { completion := "", controller := none, promptTemplate := "" }).events
      = [ServerEvent.endMsg (some (jsTrimStart ""))]
    ∧ (destroyStream { completion := "", controller := none, promptTemplate := "" }).statusBarText
      = "🤖"
    ∧ (destroyStream { completion := "", controller := none, promptTemplate := "" }).generatingContextFlag = true :=
  destroyStream_idle_behavior { completion := "", controller := none, promptTemplate := "" } rfl

/-- Slicing a string from `0` to its length is the identity. -/
theorem jsSlice_full (s : String) : jsSlice s 0 s.length = s := by
  unfold jsSlice
  rw [List.drop_zero, Nat.sub_zero]
  have h : s.length = s.toList.length := rfl
  rw [h, List.take_length]
  rfl

/-- Claim C9: a non-empty content string shorter than `minSize` (for any
option set with `minSize ≤ maxSize`, in particular the contract's defaults
`minSize = 50`, `maxSize = 500`) is returned by `simpleChunk` as exactly one
fragment equal to the full content — the sub-`minSize` filter exempts the last
fragment — and empty content yields the empty sequence. -/
theorem simpleChunk_last_fragment_exemption :
    (∀ (content : String) (minSize maxSize overlap : Nat),
        0 < content.length → content.length < minSize → minSize ≤ maxSize →
        simpleChunk content minSize maxSize overlap = [content])
    ∧ (∀ content : String, 0 < content.length → content.length < 50 →
        simpleChunk content 50 500 50 = [content])
    ∧ (∀ minSize maxSize overlap : Nat, simpleChunk "" minSize maxSize overlap = []) := by
  have hgen : ∀ (content : String) (minSize maxSize overlap : Nat),
      0 < content.length → content.length < minSize → minSize ≤ maxSize →
      simpleChunk content minSize maxSize overlap = [content] := by
    intro content minSize maxSize overlap h0 h1 h2
    have hlen : content.length ≤ maxSize := Nat.le_trans (Nat.le_of_lt h1) h2
    have hmin : min (0 + maxSize) content.length = content.length := by
      rw [Nat.zero_add]
      exact Nat.min_eq_right hlen
    have hgo : simpleChunkGo content minSize maxSize overlap (content.length + 1) 0
        = [content] := by
      simp only [simpleChunkGo]
      rw [if_pos h0, hmin, if_pos rfl, jsSlice_full]
    unfold simpleChunk
    rw [hgo]
    have hd : decide (minSize ≤ content.length ∨ (0 : Nat) = ([content] : List String).length - 1)
        = true := decide_eq_true (Or.inr rfl)
    simp only [List.enum, List.enumFrom, List.filter_cons, hd, List.filter_nil, if_true,
      List.map_cons, List.map_nil]
  exact ⟨hgen, fun c h0 h1 => hgen c 50 500 50 h0 h1 (by omega), fun m M o => rfl⟩

/-- Claim C9, witness for `simpleChunk_last_fragment_exemption` on the
three-character content `"abc"` with `minSize = 5`, `maxSize = 10`,
`overlap = 2`. -/
theorem simpleChunk_last_fragment_exemption_witness :
    simpleChunk "abc" 5 10 2 = ["abc"] :=
  simpleChunk_last_fragment_exemption.1 "abc" 5 10 2 (by decide) (by decide) (by decide)

/-- Claim C10: for `maxSize ≥ 1` the `simpleChunk` window loop always makes
progress: on every non-final iteration the start position strictly increases
(by `maxSize - overlap`, degrading deterministically to a full-window step of
`maxSize` whenever `overlap ≥ maxSize`), so the loop's result is already stable
at the fuel `simpleChunk` supplies — the source loop terminates on every
input. -/
theorem simpleChunk_window_advances (content : String) (minSize maxSize overlap : Nat)
    (hmax : 1 ≤ maxSize) :
    (∀ start, min (start + maxSize) content.length ≠ content.length →
        start < simpleChunkNext content.length maxSize overlap start
        ∧ (maxSize ≤ overlap →
            simpleChunkNext content.length maxSize overlap start = start + maxSize))
    ∧ (∀ fuel, content.length < fuel →
        simpleChunkGo content minSize maxSize overlap fuel 0
          = simpleChunkGo content minSize maxSize overlap (content.length + 1) 0) := by
  constructor
  · intro start hne
    exact simpleChunkNext_advances content.length maxSize overlap start hmax hne
  · intro fuel hf
    exact simpleChunkGo_fuel_irrelevant content minSize maxSize overlap hmax fuel
      (content.length + 1) 0 (by omega) (by omega)

/-- Claim C10, witness for `simpleChunk_window_advances` on content `"ab"`
with `maxSize = 1` and `overlap = 5 ≥ maxSize`: the start advances from `0` by
the full window, and any fuel beyond the content length gives the same
result. -/
theorem simpleChunk_window_advances_witness :
    (0 < simpleChunkNext (String.length "ab") 1 5 0
      ∧ simpleChunkNext (String.length "ab") 1 5 0 = 0 + 1)
    ∧ simpleChunkGo "ab" 1 1 5 5 0 = simpleChunkGo "ab" 1 1 5 (String.length "ab" + 1) 0 := by
  have h := simpleChunk_window_advances "ab" 1 1 5 (by decide)
  have h1 := h.1 0 (by decide)
  exact ⟨⟨h1.1, h1.2 (by decide)⟩, h.2 5 (by decide)⟩

/-- Claim C5, witness for `getRelevantCode_block_shape` on singleton admitted
groups, where the source's comma-join and the claimed newline-join coincide. -/
theorem getRelevantCode_block_shape_witness :
    getRelevantCodeReturn [some "a"] [some "c"]
      = jsTrim (jsJoin "," ((([some "a"] : List (Option String)).filterMap id).filter
            (fun s => s ≠ ""))
          ++ "\n\n" ++ jsJoin "," ((([some "c"] : List (Option String)).filterMap id).filter
            (fun s => s ≠ "")))
    ∧ getRelevantCodeReturn [some "a"] [some "c"]
      = getRelevantCodeReturnClaimed [some "a"] [some "c"] :=
  ⟨getRelevantCode_block_shape.1 [some "a"] [some "c"],
   getRelevantCode_block_shape.2 [some "a"] [some "c"] (by decide) (by decide)⟩
